import Mathlib

/-!
Verification of the Cabal multiplexing and routing layer.

The definitions below are shallow embeddings of the TypeScript sources:
src/multiplex/multiplexer.ts, src/multiplex/stream-splitter.ts,
src/multiplex/async-router.ts, src/human-loop/coordinator.ts and the
peer agent module.  JavaScript Maps are embedded as insertion-ordered
association lists over String keys; subprocess handles, timers and
once-listeners are explicit state; JSON parsing and serialization are
treated as capabilities (function parameters), following the scope
boundary of the specification.
-/

namespace Cabal

/-! ### JavaScript Map embedding (insertion-ordered association list) -/

/-- Lookup, mirroring Map.get. -/
def jget {α : Type} : List (String × α) → String → Option α
  | [], _ => none
  | (k, v) :: rest, key => if k = key then some v else jget rest key

/-- Update or append, mirroring Map.set: replaces the value while keeping
the insertion position of an existing key, appends otherwise. -/
def jset {α : Type} : List (String × α) → String → α → List (String × α)
  | [], key, v => [(key, v)]
  | (k, w) :: rest, key, v =>
    if k = key then (key, v) :: rest else (k, w) :: jset rest key v

/-- Removal, mirroring Map.delete. -/
def jdel {α : Type} : List (String × α) → String → List (String × α)
  | [], _ => []
  | (k, w) :: rest, key =>
    if k = key then jdel rest key else (k, w) :: jdel rest key

/-- The table holds at most one entry per key, as a genuine Map guarantees. -/
def NodupKeys {α : Type} (m : List (String × α)) : Prop :=
  m.Pairwise (fun a b => a.1 ≠ b.1)

instance {α : Type} [DecidableEq α] (m : List (String × α)) :
    Decidable (NodupKeys m) := by
  unfold NodupKeys
  exact List.instDecidablePairwise m

theorem jget_set_self {α : Type} (m : List (String × α)) (k : String) (v : α) :
    jget (jset m k v) k = some v := by
  induction m with
  | nil => simp [jset, jget]
  | cons p rest ih =>
    obtain ⟨k1, w⟩ := p
    by_cases h : k1 = k
    · simp [jset, h, jget]
    · simp [jset, h, jget, ih]

theorem jget_set_ne {α : Type} (m : List (String × α)) (k k2 : String) (v : α)
    (h : k ≠ k2) : jget (jset m k v) k2 = jget m k2 := by
  induction m with
  | nil => simp [jset, jget, h]
  | cons p rest ih =>
    obtain ⟨k1, w⟩ := p
    by_cases h1 : k1 = k
    · subst h1
      simp [jset, jget, h]
    · by_cases h2 : k1 = k2
      · subst h2
        simp [jset, jget, h1]
      · simp [jset, jget, h1, h2, ih]

theorem jget_del_self {α : Type} (m : List (String × α)) (k : String) :
    jget (jdel m k) k = none := by
  induction m with
  | nil => simp [jdel, jget]
  | cons p rest ih =>
    obtain ⟨k1, w⟩ := p
    by_cases h : k1 = k
    · simp [jdel, h, ih]
    · simp [jdel, jget, h, ih]

theorem jget_del_ne {α : Type} (m : List (String × α)) (k k2 : String)
    (h : k ≠ k2) : jget (jdel m k) k2 = jget m k2 := by
  induction m with
  | nil => simp [jdel, jget]
  | cons p rest ih =>
    obtain ⟨k1, w⟩ := p
    by_cases h1 : k1 = k
    · subst h1
      simp [jdel, jget, h, ih]
    · by_cases h2 : k1 = k2
      · subst h2
        simp [jdel, jget, h1]
      · simp [jdel, jget, h1, h2, ih]

theorem mem_jset {α : Type} (m : List (String × α)) (key : String) (v : α)
    (q : String × α) (h : q ∈ jset m key v) : q ∈ m ∨ q.1 = key := by
  induction m with
  | nil =>
    simp [jset] at h
    right; simp [h]
  | cons p rest ih =>
    obtain ⟨k1, w⟩ := p
    by_cases h1 : k1 = key
    · simp [jset, h1] at h
      rcases h with h | h
      · right; simp [h]
      · left; exact List.mem_cons_of_mem _ h
    · simp [jset, h1] at h
      rcases h with h | h
      · left; simp [h]
      · rcases ih h with h2 | h2
        · left; exact List.mem_cons_of_mem _ h2
        · right; exact h2

theorem nodupKeys_jset {α : Type} (m : List (String × α)) (k : String) (v : α)
    (h : NodupKeys m) : NodupKeys (jset m k v) := by
  induction m with
  | nil =>
    simp [NodupKeys, jset]
  | cons p rest ih =>
    obtain ⟨k1, w⟩ := p
    unfold NodupKeys at h ⊢
    rw [List.pairwise_cons] at h
    by_cases h1 : k1 = k
    · subst h1
      have hrw : jset ((k1, w) :: rest) k1 v = (k1, v) :: rest := by simp [jset]
      rw [hrw, List.pairwise_cons]
      exact ⟨fun q hq => h.1 q hq, h.2⟩
    · have hrw : jset ((k1, w) :: rest) k v = (k1, w) :: jset rest k v := by
        simp [jset, h1]
      rw [hrw, List.pairwise_cons]
      refine ⟨?_, ih h.2⟩
      intro q hq
      rcases mem_jset rest k v q hq with h2 | h2
      · exact h.1 q h2
      · rw [h2]; exact h1

theorem jdel_sublist {α : Type} (m : List (String × α)) (k : String) :
    List.Sublist (jdel m k) m := by
  induction m with
  | nil => simp [jdel]
  | cons p rest ih =>
    obtain ⟨k1, w⟩ := p
    by_cases h : k1 = k
    · simp only [jdel, if_pos h]
      exact ih.trans (List.sublist_cons_self _ _)
    · simp only [jdel, if_neg h]
      exact ih.cons₂ _

theorem nodupKeys_jdel {α : Type} (m : List (String × α)) (k : String)
    (h : NodupKeys m) : NodupKeys (jdel m k) := by
  unfold NodupKeys at h ⊢
  exact h.sublist (jdel_sublist m k)

theorem length_jset_le {α : Type} (m : List (String × α)) (k : String) (v : α) :
    (jset m k v).length ≤ m.length + 1 := by
  induction m with
  | nil => simp [jset]
  | cons p rest ih =>
    obtain ⟨k1, w⟩ := p
    by_cases h : k1 = k
    · simp [jset, h]
    · simp only [jset, if_neg h, List.length_cons]
      omega

theorem jget_of_mem_nodup {α : Type} (m : List (String × α)) (k : String) (v : α)
    (hnd : NodupKeys m) (hmem : (k, v) ∈ m) : jget m k = some v := by
  induction m with
  | nil => simp at hmem
  | cons p rest ih =>
    obtain ⟨k1, w⟩ := p
    unfold NodupKeys at hnd
    rw [List.pairwise_cons] at hnd
    rcases List.mem_cons.mp hmem with h | h
    · have hk : k = k1 := by rw [Prod.ext_iff] at h; exact h.1
      have hv : v = w := by rw [Prod.ext_iff] at h; exact h.2
      subst hk
      subst hv
      simp [jget]
    · have hk1 : k1 ≠ k := hnd.1 (k, v) h
      simp [jget, hk1, ih hnd.2 h]

/-! ### ClaudeMultiplexer (src/multiplex/multiplexer.ts)

A subprocess handle records the OS process identity and whether its
stdin pipe is still writable; `agent.stdin.write` is the only fallible
capability used by the send path (a write to a destroyed pipe throws).
-/

/-- Embedding of the ChildProcess handle owned by the multiplexer. -/
structure ChildProc where
  procId : Nat
  stdinOpen : Bool
  deriving DecidableEq, Repr

/-- AgentMessage from multiplexer.ts. -/
structure AgentMessage where
  agentId : String
  kind : String
  data : String
  timestamp : Nat
  correlationId : Option String := none
  deriving DecidableEq, Repr

/-- Events emitted by the multiplexer EventEmitter. -/
inductive MuxEvent where
  | agentSpawn (agentId : String)
  | agentExit (agentId : String) (code : Int)
  | messageSend (msg : AgentMessage)
  deriving DecidableEq, Repr

/-- Multiplexer instance state: the live-agent table and per-agent
message buffers, both JavaScript Maps in the source. -/
structure MuxState where
  maxConcurrent : Nat
  agents : List (String × ChildProc)
  messageBuffer : List (String × List AgentMessage)
  deriving Repr

/-- A fresh multiplexer (constructor). -/
def initMux (maxConcurrent : Nat) : MuxState :=
  { maxConcurrent := maxConcurrent, agents := [], messageBuffer := [] }

/-- Spawn options; a missing or empty id falls back to a generated UUID
(JavaScript truthiness of options.id). -/
structure AgentOptions where
  id : Option String := none
  deriving DecidableEq, Repr

/-- The agent id chosen by spawnAgent: options.id when truthy, else the
generated UUID (passed in as a parameter since randomness is external). -/
def chosenId (opts : AgentOptions) (freshId : String) : String :=
  match opts.id with
  | some i => if i = "" then freshId else i
  | none => freshId

/-- The capacity error message thrown by spawnAgent. -/
def capacityMsg (n : Nat) : String :=
  "Maximum concurrent agents (" ++ toString n ++ ") reached"

/-- ClaudeMultiplexer.spawnAgent.  Fails with the capacity error when the
live-agent count has reached the configured maximum; otherwise registers
the handle and the message buffer and emits agent:spawn.  The result
carries the state after the call, the emitted events, and either the new
agent id or the thrown error. -/
def spawnAgent (st : MuxState) (opts : AgentOptions) (freshId : String)
    (proc : ChildProc) : MuxState × List MuxEvent × Except String String :=
  let agentId := chosenId opts freshId
  if st.maxConcurrent ≤ st.agents.length then
    (st, [], Except.error (capacityMsg st.maxConcurrent))
  else
    ({ st with
        agents := jset st.agents agentId proc,
        messageBuffer := jset st.messageBuffer agentId [] },
      [MuxEvent.agentSpawn agentId], Except.ok agentId)

/-- The request AgentMessage constructed by sendToAgent. -/
def sendMsg (agentId message : String) (now : Nat) (corrId : String) : AgentMessage :=
  { agentId := agentId, kind := "request", data := message,
    timestamp := now, correlationId := some corrId }

/-- ClaudeMultiplexer.sendToAgent.  Fails when no live handle exists for
the id; otherwise emits message:send and then writes one line to the
subprocess stdin, which throws when the pipe is no longer writable. -/
def sendToAgent (st : MuxState) (agentId : String) (message : String)
    (now : Nat) (freshCorr : String) (corr : Option String) :
    List MuxEvent × Except String Unit :=
  match jget st.agents agentId with
  | none => ([], Except.error ("Agent " ++ agentId ++ " not found"))
  | some proc =>
    let corrId := match corr with
      | some c => if c = "" then freshCorr else c
      | none => freshCorr
    ([MuxEvent.messageSend (sendMsg agentId message now corrId)],
      if proc.stdinOpen then Except.ok () else Except.error "stdin pipe destroyed")

/-- ClaudeMultiplexer.broadcast.  Maps sendToAgent over all live agent
ids and awaits them with Promise.all: every send is attempted (all the
message:send events fire), but the aggregate rejects with the first
per-agent failure because no send is individually caught. -/
def broadcast (st : MuxState) (message : String) (now : Nat)
    (fresh : String → String) : List MuxEvent × Except String Unit :=
  let results := st.agents.map
    (fun p => sendToAgent st p.1 message now (fresh p.1) none)
  (results.flatMap Prod.fst,
    match results.findSome? (fun r =>
      match r.2 with
      | Except.error e => some e
      | Except.ok _ => none) with
    | some e => Except.error e
    | none => Except.ok ())

/-- ClaudeMultiplexer.killAgent: kills and deregisters a live handle,
and is a silent no-op for an unknown id.  The second component lists the
OS kill signals issued. -/
def killAgent (st : MuxState) (agentId : String) : MuxState × List Nat :=
  match jget st.agents agentId with
  | some proc =>
    ({ st with agents := jdel st.agents agentId }, [proc.procId])
  | none => (st, [])

/-! ### PeerAgent shutdown (peer agent module) -/

/-- Peer layer events on the event bus. -/
inductive PeerEvent where
  | peerLeave (nodeId : String)
  deriving DecidableEq, Repr

/-- PeerAgent.shutdown: kills the owned subprocess through the
multiplexer, then emits the peer:leave departure announcement. -/
def shutdown (st : MuxState) (agentId nodeId : String) :
    MuxState × List Nat × List PeerEvent :=
  let r := killAgent st agentId
  (r.1, r.2, [PeerEvent.peerLeave nodeId])

/-! ### Claim C1: spawn capacity -/

/-- One spawnAgent call site: options, the generated UUID, and the
subprocess handle the OS would return. -/
def SpawnInput : Type := AgentOptions × String × ChildProc

/-- A sequence of spawnAgent calls, threading the state. -/
def runSpawns (st : MuxState) (inputs : List SpawnInput) : MuxState :=
  inputs.foldl (fun s i => (spawnAgent s i.1 i.2.1 i.2.2).1) st

theorem runSpawns_bound (inputs : List SpawnInput) (st : MuxState)
    (h : st.agents.length ≤ st.maxConcurrent) :
    (runSpawns st inputs).agents.length ≤ (runSpawns st inputs).maxConcurrent ∧
    (runSpawns st inputs).maxConcurrent = st.maxConcurrent := by
  induction inputs generalizing st with
  | nil => exact ⟨h, rfl⟩
  | cons i rest ih =>
    have hstep :
        ((spawnAgent st i.1 i.2.1 i.2.2).1).agents.length ≤
            ((spawnAgent st i.1 i.2.1 i.2.2).1).maxConcurrent ∧
        ((spawnAgent st i.1 i.2.1 i.2.2).1).maxConcurrent = st.maxConcurrent := by
      by_cases hc : st.maxConcurrent ≤ st.agents.length
      · have heq : spawnAgent st i.1 i.2.1 i.2.2 =
            (st, [], Except.error (capacityMsg st.maxConcurrent)) := by
          unfold spawnAgent
          rw [if_pos hc]
        rw [heq]
        exact ⟨h, rfl⟩
      · have heq : (spawnAgent st i.1 i.2.1 i.2.2).1 =
            { st with
                agents := jset st.agents (chosenId i.1 i.2.1) i.2.2,
                messageBuffer := jset st.messageBuffer (chosenId i.1 i.2.1) [] } := by
          unfold spawnAgent
          rw [if_neg hc]
        rw [heq]
        refine ⟨?_, rfl⟩
        show (jset st.agents (chosenId i.1 i.2.1) i.2.2).length ≤ st.maxConcurrent
        have hlen := length_jset_le st.agents (chosenId i.1 i.2.1) i.2.2
        omega
    have hrun : runSpawns st (i :: rest) = runSpawns (spawnAgent st i.1 i.2.1 i.2.2).1 rest := rfl
    rw [hrun]
    exact ⟨(ih _ hstep.1).1, (ih _ hstep.1).2.trans hstep.2⟩

/-- C1: for every configured maximum N and every sequence of spawnAgent
calls starting from a fresh multiplexer, the live-agent count never
exceeds N; and a spawnAgent call made while the live-agent count is at
least the maximum fails with the capacity error, leaves the state
unchanged, and emits no event. -/
theorem spawnAgent_capacity (maxN : Nat) (inputs : List SpawnInput)
    (st : MuxState) (opts : AgentOptions) (fid : String) (proc : ChildProc)
    (hfull : st.maxConcurrent ≤ st.agents.length) :
    (runSpawns (initMux maxN) inputs).agents.length ≤ maxN ∧
    spawnAgent st opts fid proc =
      (st, [], Except.error (capacityMsg st.maxConcurrent)) := by
  constructor
  · have h := runSpawns_bound inputs (initMux maxN) (by simp [initMux])
    have h1 := h.1
    rw [h.2] at h1
    exact h1
  · unfold spawnAgent
    simp [hfull]

/-- A healthy subprocess handle used by concrete instances. -/
def okProc : ChildProc := { procId := 3, stdinOpen := true }

theorem spawnAgent_capacity_witness :
    (initMux 0).maxConcurrent ≤ (initMux 0).agents.length ∧
    (runSpawns (initMux 1) [(⟨none⟩, "u1", okProc), (⟨none⟩, "u2", okProc)]).agents.length ≤ 1 ∧
    spawnAgent (initMux 0) ⟨none⟩ "u3" okProc =
      (initMux 0, [], Except.error (capacityMsg (initMux 0).maxConcurrent)) :=
  ⟨Nat.le_refl 0,
    spawnAgent_capacity 1 [(⟨none⟩, "u1", okProc), (⟨none⟩, "u2", okProc)]
      (initMux 0) ⟨none⟩ "u3" okProc (Nat.le_refl 0)⟩

/-! ### Claim C6: broadcast failure semantics -/

theorem flatMap_fst_map_pair {α β γ : Type} (l : List α) (f : α → β) (r : α → γ) :
    ((l.map (fun a => ([f a], r a))).flatMap Prod.fst) = l.map f := by
  induction l with
  | nil => rfl
  | cons a rest ih => simp [ih]

theorem findSome_err_none_iff {α : Type} (l : List α) (f : α → List MuxEvent)
    (r : α → Except String Unit) :
    ((l.map (fun a => (f a, r a))).findSome? (fun p =>
        match p.2 with
        | Except.error e => some e
        | Except.ok _ => none) = none) ↔
      ∀ a ∈ l, r a = Except.ok () := by
  induction l with
  | nil => simp
  | cons a rest ih =>
    cases hr : r a with
    | error e => simp [List.findSome?, hr]
    | ok u => simp [List.findSome?, hr, ih]

/-- C6 counterexample state: one live agent whose stdin pipe is closed. -/
def stBad : MuxState :=
  { maxConcurrent := 5, agents := [("a1", { procId := 7, stdinOpen := false })],
    messageBuffer := [("a1", [])] }

/-- C6 counterexample: the claim says a per-agent send failure never
causes the broadcast call itself to reject, but with one live agent
whose stdin write fails, Promise.all propagates the failure and
broadcast rejects. -/
theorem broadcast_rejects_on_send_failure :
    (broadcast stBad "hello" 0 (fun s => s)).2 = Except.error "stdin pipe destroyed" := by
  rfl

/-- C6 amended: broadcast attempts a send to every live agent (every
message:send fires), and it resolves exactly when every per-agent stdin
write succeeds; a per-agent send failure is not swallowed but rejects
the broadcast, because the sends are aggregated with Promise.all and
never individually caught. -/
theorem broadcast_attempts_all (st : MuxState) (message : String) (now : Nat)
    (fresh : String → String) (hnd : NodupKeys st.agents) :
    (broadcast st message now fresh).1 = st.agents.map (fun p =>
        MuxEvent.messageSend (sendMsg p.1 message now (fresh p.1))) ∧
    ((broadcast st message now fresh).2 = Except.ok () ↔
      ∀ p ∈ st.agents, p.2.stdinOpen = true) := by
  have hpt : ∀ p ∈ st.agents,
      sendToAgent st p.1 message now (fresh p.1) none =
        ([MuxEvent.messageSend (sendMsg p.1 message now (fresh p.1))],
          if p.2.stdinOpen then Except.ok () else Except.error "stdin pipe destroyed") := by
    intro p hp
    obtain ⟨k, proc⟩ := p
    simp [sendToAgent, jget_of_mem_nodup st.agents k proc hnd hp]
  have hmapeq : st.agents.map (fun p => sendToAgent st p.1 message now (fresh p.1) none)
      = st.agents.map (fun p =>
          ([MuxEvent.messageSend (sendMsg p.1 message now (fresh p.1))],
            if p.2.stdinOpen then Except.ok () else Except.error "stdin pipe destroyed")) :=
    List.map_congr_left hpt
  constructor
  · show (broadcast st message now fresh).1 = _
    unfold broadcast
    simp only [hmapeq]
    exact flatMap_fst_map_pair st.agents _ _
  · show (broadcast st message now fresh).2 = Except.ok () ↔ _
    unfold broadcast
    simp only [hmapeq]
    have hfs := findSome_err_none_iff st.agents
      (fun p => [MuxEvent.messageSend (sendMsg p.1 message now (fresh p.1))])
      (fun p => if p.2.stdinOpen then Except.ok () else Except.error "stdin pipe destroyed")
    constructor
    · intro hok
      cases hcase : ((st.agents.map (fun p =>
          ([MuxEvent.messageSend (sendMsg p.1 message now (fresh p.1))],
            if p.2.stdinOpen then Except.ok () else Except.error "stdin pipe destroyed"))).findSome?
          (fun r => match r.2 with
            | Except.error e => some e
            | Except.ok _ => none)) with
      | none =>
        intro p hp
        have := hfs.mp hcase p hp
        by_cases hs : p.2.stdinOpen = true
        · exact hs
        · simp [hs] at this
      | some e =>
        simp only [hcase] at hok
        exact absurd hok (by simp)
    · intro hall
      have : ∀ p ∈ st.agents,
          (if p.2.stdinOpen then Except.ok () else Except.error "stdin pipe destroyed")
            = Except.ok () := by
        intro p hp
        simp [hall p hp]
      rw [hfs.mpr this]

theorem broadcast_attempts_all_witness :
    NodupKeys stBad.agents ∧
    ((broadcast stBad "hello" 0 (fun s => s)).2 = Except.ok () ↔
      ∀ p ∈ stBad.agents, p.2.stdinOpen = true) :=
  ⟨by decide, (broadcast_attempts_all stBad "hello" 0 (fun s => s) (by decide)).2⟩

/-! ### Claim C7: idempotence of kill and shutdown -/

/-- C7 state for the counterexample: one live agent. -/
def stOne : MuxState :=
  { maxConcurrent := 5, agents := [("a1", okProc)], messageBuffer := [("a1", [])] }

/-- C7 counterexample: the claim says the second shutdown call emits no
second departure event, but the peer layer emits peer:leave again on
every shutdown call. -/
theorem shutdown_twice_duplicates_peer_leave :
    (shutdown (shutdown stOne "a1" "n1").1 "a1" "n1").2.2 = [PeerEvent.peerLeave "n1"] := by
  rfl

/-- C7 amended: calling killAgent twice with the same agent id produces
no error and the second call is a no-op that signals no process and
emits nothing; calling shutdown twice produces no error and kills no
process on the second call, but it does emit the peer:leave departure
announcement again on every call. -/
theorem kill_shutdown_second_call (st : MuxState) (agentId nodeId : String) :
    killAgent (killAgent st agentId).1 agentId = ((killAgent st agentId).1, []) ∧
    shutdown (shutdown st agentId nodeId).1 agentId nodeId =
      ((shutdown st agentId nodeId).1, [], [PeerEvent.peerLeave nodeId]) := by
  have hnone : jget ((killAgent st agentId).1).agents agentId = none := by
    unfold killAgent
    cases hg : jget st.agents agentId with
    | none => simp [hg]
    | some proc => simp [hg, jget_del_self]
  have hnoop : ∀ s : MuxState, jget s.agents agentId = none →
      killAgent s agentId = (s, []) := by
    intro s hs
    unfold killAgent
    rw [hs]
  constructor
  · exact hnoop _ hnone
  · show shutdown (killAgent st agentId).1 agentId nodeId = _
    unfold shutdown
    rw [hnoop _ hnone]

/-! ### StreamSplitter chunk reassembly (src/multiplex/stream-splitter.ts)

Byte chunks are embedded as character lists and JSON.parse as an opaque
capability parameter, since wire encoding is outside the specified core.
processChunk splits each chunk on newline; a line that fails to parse is
combined with the single shared reassembly buffer and retried, clearing
the buffer on success.  Each dispatched event carries the exact text
that parsed together with its parse result, so byte identity of the
recovered message is directly observable.
-/

/-- JavaScript String.split with separator newline. -/
def splitOnNL : List Char → List (List Char)
  | [] => [[]]
  | c :: rest =>
    match splitOnNL rest with
    | [] => [[]]
    | h :: t => if c = '\n' then [] :: h :: t else (c :: h) :: t

/-- JavaScript falsiness of line.trim(): the line is empty or whitespace. -/
def isBlank (l : List Char) : Bool :=
  l.all Char.isWhitespace

/-- StreamSplitter.handlePartialMessage: combine the shared buffer with
the failed line, retry the parse, clear the buffer on success and keep
buffering on failure. -/
def handlePartialMessage {α : Type} (parse : List Char → Option α)
    (buf : List Char) (line : List Char) : List Char × List (List Char × α) :=
  let combined := buf ++ line
  match parse combined with
  | some m => ([], [(combined, m)])
  | none => (combined, [])

/-- One line of StreamSplitter.processChunk: skip blank lines, route a
line that parses, otherwise fall back to the partial-message buffer. -/
def procLine {α : Type} (parse : List Char → Option α)
    (buf : List Char) (line : List Char) : List Char × List (List Char × α) :=
  if isBlank line then (buf, [])
  else match parse line with
    | some m => (buf, [(line, m)])
    | none => handlePartialMessage parse buf line

/-- StreamSplitter.processChunk over one raw chunk: split on newlines
and process each line in order, threading the reassembly buffer and
collecting the dispatched (text, message) events. -/
def processChunk {α : Type} (parse : List Char → Option α)
    (buf : List Char) (chunk : List Char) : List Char × List (List Char × α) :=
  (splitOnNL chunk).foldl
    (fun acc line =>
      let r := procLine parse acc.1 line
      (r.1, acc.2 ++ r.2))
    (buf, [])

theorem splitOnNL_no_nl (l : List Char) (h : '\n' ∉ l) : splitOnNL l = [l] := by
  induction l with
  | nil => rfl
  | cons c rest ih =>
    have hc : c ≠ '\n' := fun he => h (he ▸ List.mem_cons_self c rest)
    have hrest : '\n' ∉ rest := fun hm => h (List.mem_cons_of_mem c hm)
    simp [splitOnNL, ih hrest, hc]

theorem splitOnNL_append_nl (l : List Char) (h : '\n' ∉ l) :
    splitOnNL (l ++ ['\n']) = [l, []] := by
  induction l with
  | nil => rfl
  | cons c rest ih =>
    have hc : c ≠ '\n' := fun he => h (he ▸ List.mem_cons_self c rest)
    have hrest : '\n' ∉ rest := fun hm => h (List.mem_cons_of_mem c hm)
    simp [splitOnNL, ih hrest, hc]

/-- C3: a structured message serialized to one line and delivered in two
chunks split at an arbitrary byte offset inside the line (including
mid-token) dispatches nothing before the final chunk arrives, and once
the final chunk (carrying the line terminator) arrives it dispatches
exactly one message whose recovered text is byte-identical to the
pre-split line.  The parse hypotheses state the wire-format facts that
the whole line parses while its strict prefix and suffix at the split
point do not, and that serialized JSON text is never blank. -/
theorem splitter_reassembly {α : Type} (parse : List Char → Option α)
    (c1 c2 : List Char) (m : α)
    (hnl1 : '\n' ∉ c1) (hnl2 : '\n' ∉ c2)
    (hb1 : isBlank c1 = false) (hb2 : isBlank c2 = false)
    (hfull : parse (c1 ++ c2) = some m)
    (hp1 : parse c1 = none) (hp2 : parse c2 = none) :
    processChunk parse [] c1 = (c1, []) ∧
    processChunk parse c1 (c2 ++ ['\n']) = ([], [(c1 ++ c2, m)]) := by
  constructor
  · unfold processChunk
    rw [splitOnNL_no_nl c1 hnl1]
    simp [procLine, hb1, hp1, handlePartialMessage]
  · unfold processChunk
    rw [splitOnNL_append_nl c2 hnl2]
    simp [procLine, hb2, hp2, handlePartialMessage, hfull, isBlank]
    simpa [isBlank] using hb2

/-- A toy single-message wire format for the concrete instance: only the
exact text ab parses. -/
def toyParse (l : List Char) : Option Nat :=
  if l = ['a', 'b'] then some 7 else none

/-! ### StreamSplitter.routeMessage stream table (claim C4) -/

/-- Parsed message shape consumed by routeMessage; every field may be
absent, as on an arbitrary JSON object. -/
structure SMsg where
  streamId : Option String := none
  agentId : Option String := none
  mtype : Option String := none
  mdata : Option String := none
  deriving DecidableEq, Repr

/-- JavaScript or-chain over a possibly missing or empty string field. -/
def falsyOr (o : Option String) (d : String) : String :=
  match o with
  | some s => if s = "" then d else s
  | none => d

/-- The stream key: msg.streamId, else msg.agentId, else the default
sentinel, with JavaScript falsiness. -/
def streamKeyOf (m : SMsg) : String :=
  falsyOr m.streamId (falsyOr m.agentId "default")

/-- StreamMetadata from stream-splitter.ts. -/
structure StreamMeta where
  agentId : String
  streamId : String
  kind : String
  started : Nat
  chunks : Nat
  deriving DecidableEq, Repr

/-- Content written to a PassThrough stream: either the payload of a
stream:chunk message or a whole one-shot message. -/
inductive Written where
  | chunkData (d : Option String)
  | whole (m : SMsg)
  deriving DecidableEq, Repr

/-- Events emitted by routeMessage. -/
inductive SpEvent where
  | streamCreated (streamId : String)
  | streamStart (streamId : String) (d : Option String)
  | streamChunk (streamId : String) (d : Option String)
  | streamEnd (streamId : String) (meta : StreamMeta)
  deriving DecidableEq, Repr

/-- Splitter instance state: the PassThrough table and metadata table,
created and garbage-collected in lockstep. -/
structure SpState where
  streams : List (String × List Written)
  metadata : List (String × StreamMeta)
  deriving Repr

/-- Fresh metadata initialized on lazy stream creation. -/
def initMeta (m : SMsg) (sid : String) (now : Nat) : StreamMeta :=
  { agentId := falsyOr m.agentId sid, streamId := sid,
    kind := falsyOr m.mtype "response", started := now, chunks := 0 }

/-- stream.write on the PassThrough table. -/
def writeTo (streams : List (String × List Written)) (sid : String) (w : Written) :
    List (String × List Written) :=
  jset streams sid (((jget streams sid).getD []) ++ [w])

/-- StreamSplitter.cleanup: drop both table entries for the stream. -/
def cleanup (st : SpState) (sid : String) : SpState :=
  { streams := jdel st.streams sid, metadata := jdel st.metadata sid }

/-- StreamSplitter.routeMessage.  Determines the stream key, lazily
creates the stream and its metadata, increments the chunk counter, then
dispatches on the declared message type; stream:end finalizes the stream
and garbage-collects both entries.  The metadata lookup after creation
mirrors the non-null assertion in the source, whose default is dead code
whenever the two tables are in sync. -/
def routeMessage (st : SpState) (m : SMsg) (now : Nat) : SpState × List SpEvent :=
  let sid := streamKeyOf m
  let st1 : SpState :=
    if jget st.streams sid = none then
      { streams := jset st.streams sid [],
        metadata := jset st.metadata sid (initMeta m sid now) }
    else st
  let evs0 : List SpEvent :=
    if jget st.streams sid = none then [SpEvent.streamCreated sid] else []
  let meta0 := (jget st1.metadata sid).getD (initMeta m sid now)
  let meta := { meta0 with chunks := meta0.chunks + 1 }
  let st2 : SpState := { st1 with metadata := jset st1.metadata sid meta }
  if m.mtype = some "stream:start" then
    (st2, evs0 ++ [SpEvent.streamStart sid m.mdata])
  else if m.mtype = some "stream:chunk" then
    ({ st2 with streams := writeTo st2.streams sid (Written.chunkData m.mdata) },
      evs0 ++ [SpEvent.streamChunk sid m.mdata])
  else if m.mtype = some "stream:end" then
    (cleanup st2 sid, evs0 ++ [SpEvent.streamEnd sid meta])
  else
    ({ st2 with streams := writeTo st2.streams sid (Written.whole m) }, evs0)

theorem jset_jset_same {α : Type} (m : List (String × α)) (k : String) (v w : α) :
    jset (jset m k v) k w = jset m k w := by
  induction m with
  | nil => simp [jset]
  | cons p rest ih =>
    obtain ⟨k1, w1⟩ := p
    by_cases h : k1 = k
    · simp [jset, h]
    · simp [jset, h, ih]

theorem jdel_jset_same {α : Type} (m : List (String × α)) (k : String) (v : α) :
    jdel (jset m k v) k = jdel m k := by
  induction m with
  | nil => simp [jset, jdel]
  | cons p rest ih =>
    obtain ⟨k1, w1⟩ := p
    by_cases h : k1 = k
    · simp [jset, jdel, h]
    · simp [jset, jdel, h, ih]

/-- Characterization of the metadata table after routeMessage: the entry
for the message key gets its chunk counter bumped (from zero on lazy
creation), and is dropped again exactly on stream:end. -/
theorem routeMessage_metadata_eq (st : SpState) (m : SMsg) (now : Nat)
    (hsync : ∀ k, (jget st.streams k).isSome ↔ (jget st.metadata k).isSome) :
    ∃ meta : StreamMeta,
      meta.chunks = (match jget st.metadata (streamKeyOf m) with
        | some a => a.chunks
        | none => 0) + 1 ∧
      ((routeMessage st m now).1).metadata =
        (if m.mtype = some "stream:end"
          then jdel st.metadata (streamKeyOf m)
          else jset st.metadata (streamKeyOf m) meta) := by
  by_cases hf : jget st.streams (streamKeyOf m) = none
  · have hmn : jget st.metadata (streamKeyOf m) = none := by
      have h1 := hsync (streamKeyOf m)
      rw [hf] at h1
      simp only [Option.isSome_none, false_iff, Bool.not_eq_true] at h1
      cases hmm : jget st.metadata (streamKeyOf m) with
      | none => rfl
      | some a => rw [hmm] at h1; simp at h1
    refine ⟨{ initMeta m (streamKeyOf m) now with chunks := 1 }, ?_, ?_⟩
    · simp [hmn, initMeta]
    · unfold routeMessage
      simp only [hf, if_pos, jget_set_self, Option.getD_some, jset_jset_same]
      by_cases hstart : m.mtype = some "stream:start"
      · have hend : ¬ m.mtype = some "stream:end" := by simp [hstart]
        simp [hstart, hend, initMeta]
      · by_cases hchunk : m.mtype = some "stream:chunk"
        · have hend : ¬ m.mtype = some "stream:end" := by simp [hchunk]
          simp [hstart, hchunk, hend, initMeta]
        · by_cases hend : m.mtype = some "stream:end"
          · simp [hstart, hchunk, hend, cleanup, jdel_jset_same]
          · simp [hstart, hchunk, hend, initMeta]
  · have hs : (jget st.streams (streamKeyOf m)).isSome := by
      cases hmm : jget st.streams (streamKeyOf m) with
      | none => exact absurd hmm hf
      | some a => simp
    obtain ⟨a, ha⟩ := Option.isSome_iff_exists.mp ((hsync (streamKeyOf m)).mp hs)
    refine ⟨{ a with chunks := a.chunks + 1 }, ?_, ?_⟩
    · simp [ha]
    · unfold routeMessage
      simp only [hf, if_neg, ha, Option.getD_some]
      by_cases hstart : m.mtype = some "stream:start"
      · have hend : ¬ m.mtype = some "stream:end" := by simp [hstart]
        simp [hstart, hend, ha]
      · by_cases hchunk : m.mtype = some "stream:chunk"
        · have hend : ¬ m.mtype = some "stream:end" := by simp [hchunk]
          simp [hstart, hchunk, hend, ha]
        · by_cases hend : m.mtype = some "stream:end"
          · simp [hstart, hchunk, hend, cleanup, jdel_jset_same, ha]
          · simp [hstart, hchunk, hend, ha]

theorem isSome_jget_jset {α : Type} (m : List (String × α)) (k k2 : String) (v : α) :
    (jget (jset m k v) k2).isSome = (if k2 = k then true else (jget m k2).isSome) := by
  by_cases h : k2 = k
  · subst h
    rw [jget_set_self]
    simp
  · rw [jget_set_ne _ _ _ _ (fun he => h he.symm), if_neg h]

theorem isSome_jget_jdel {α : Type} (m : List (String × α)) (k k2 : String) :
    (jget (jdel m k) k2).isSome = (if k2 = k then false else (jget m k2).isSome) := by
  by_cases h : k2 = k
  · subst h
    rw [jget_del_self]
    simp
  · rw [jget_del_ne _ _ _ (fun he => h he.symm), if_neg h]

/-- Presence in the PassThrough table after routeMessage: the entry for
the message key exists except after stream:end, other keys are
untouched. -/
theorem routeMessage_streams_isSome (st : SpState) (m : SMsg) (now : Nat) (k : String) :
    (jget ((routeMessage st m now).1).streams k).isSome =
      (if k = streamKeyOf m then (if m.mtype = some "stream:end" then false else true)
       else (jget st.streams k).isSome) := by
  by_cases hf : jget st.streams (streamKeyOf m) = none
  · unfold routeMessage
    by_cases hstart : m.mtype = some "stream:start"
    · have hend : ¬ m.mtype = some "stream:end" := by simp [hstart]
      simp only [hf, if_pos, if_true, hstart, hend, if_neg, if_false]
      simp [hstart, hend, isSome_jget_jset]
    · by_cases hchunk : m.mtype = some "stream:chunk"
      · have hend : ¬ m.mtype = some "stream:end" := by simp [hchunk]
        simp [hf, hstart, hchunk, hend, writeTo, jset_jset_same, isSome_jget_jset]
      · by_cases hend : m.mtype = some "stream:end"
        · simp [hf, hstart, hchunk, hend, cleanup, jdel_jset_same, isSome_jget_jdel]
        · simp [hf, hstart, hchunk, hend, writeTo, jset_jset_same, isSome_jget_jset]
  · unfold routeMessage
    by_cases hstart : m.mtype = some "stream:start"
    · have hend : ¬ m.mtype = some "stream:end" := by simp [hstart]
      simp [hf, hstart, hend]
      intro hk
      rw [hk, Option.isSome_iff_ne_none]
      exact hf
    · by_cases hchunk : m.mtype = some "stream:chunk"
      · have hend : ¬ m.mtype = some "stream:end" := by simp [hchunk]
        simp [hf, hstart, hchunk, hend, writeTo, isSome_jget_jset]
      · by_cases hend : m.mtype = some "stream:end"
        · simp [hf, hstart, hchunk, hend, cleanup, isSome_jget_jdel]
        · simp [hf, hstart, hchunk, hend, writeTo, isSome_jget_jset]

/-- The two tables of the splitter are created and garbage-collected in
lockstep, so their key sets stay synchronized across any message. -/
theorem routeMessage_preserves_sync (st : SpState) (m : SMsg) (now : Nat)
    (hsync : ∀ k, (jget st.streams k).isSome ↔ (jget st.metadata k).isSome) :
    ∀ k, (jget ((routeMessage st m now).1).streams k).isSome ↔
      (jget ((routeMessage st m now).1).metadata k).isSome := by
  intro k
  obtain ⟨meta, hch, heq⟩ := routeMessage_metadata_eq st m now hsync
  have hs := routeMessage_streams_isSome st m now k
  have hm : (jget ((routeMessage st m now).1).metadata k).isSome =
      (if k = streamKeyOf m then (if m.mtype = some "stream:end" then false else true)
       else (jget st.metadata k).isSome) := by
    rw [heq]
    by_cases hend : m.mtype = some "stream:end"
    · rw [if_pos hend, isSome_jget_jdel]
      by_cases hk : k = streamKeyOf m <;> simp [hk, hend]
    · rw [if_neg hend, isSome_jget_jset]
      by_cases hk : k = streamKeyOf m <;> simp [hk, hend]
  rw [hs, hm]
  by_cases hk : k = streamKeyOf m
  · rw [if_pos hk, if_pos hk]
  · rw [if_neg hk, if_neg hk]
    exact hsync k

/-- C4: routeMessage keeps the stream table a genuine map (at most one
active entry per streamId), never decreases the chunk counter of an
entry that survives the step, garbage-collects the entry on stream:end,
after such a garbage collection a subsequent message with the same
streamId starts a fresh stream whose chunk count is one, and it keeps
the two tables synchronized so these invariants propagate along every
message sequence. -/
theorem routeMessage_stream_table (st : SpState) (m : SMsg) (now : Nat) (id : String)
    (hnd : NodupKeys st.metadata)
    (hsync : ∀ k, (jget st.streams k).isSome ↔ (jget st.metadata k).isSome) :
    NodupKeys ((routeMessage st m now).1).metadata ∧
    (∀ a b, jget st.metadata id = some a →
      jget ((routeMessage st m now).1).metadata id = some b → a.chunks ≤ b.chunks) ∧
    (streamKeyOf m = id → m.mtype = some "stream:end" →
      jget ((routeMessage st m now).1).metadata id = none) ∧
    (streamKeyOf m = id → jget st.metadata id = none → m.mtype ≠ some "stream:end" →
      ∃ b, jget ((routeMessage st m now).1).metadata id = some b ∧ b.chunks = 1) ∧
    (∀ k, (jget ((routeMessage st m now).1).streams k).isSome ↔
      (jget ((routeMessage st m now).1).metadata k).isSome) := by
  obtain ⟨meta, hch, heq⟩ := routeMessage_metadata_eq st m now hsync
  refine ⟨?_, ?_, ?_, ?_, routeMessage_preserves_sync st m now hsync⟩
  · rw [heq]
    by_cases hend : m.mtype = some "stream:end"
    · rw [if_pos hend]
      exact nodupKeys_jdel _ _ hnd
    · rw [if_neg hend]
      exact nodupKeys_jset _ _ _ hnd
  · intro a b ha hb
    rw [heq] at hb
    by_cases hend : m.mtype = some "stream:end"
    · rw [if_pos hend] at hb
      by_cases hid : streamKeyOf m = id
      · rw [hid, jget_del_self] at hb
        exact absurd hb (by simp)
      · rw [jget_del_ne _ _ _ hid] at hb
        rw [ha] at hb
        injection hb with hab
        rw [hab]
    · rw [if_neg hend] at hb
      by_cases hid : streamKeyOf m = id
      · rw [hid, jget_set_self] at hb
        injection hb with hab
        rw [← hab]
        rw [hid, ha] at hch
        simp at hch
        omega
      · rw [jget_set_ne _ _ _ _ hid] at hb
        rw [ha] at hb
        injection hb with hab
        rw [hab]
  · intro hid hend
    rw [heq, if_pos hend, hid, jget_del_self]
  · intro hid hnone hend
    refine ⟨meta, ?_, ?_⟩
    · rw [heq, if_neg hend, hid, jget_set_self]
    · rw [hid, hnone] at hch
      simpa using hch

theorem routeMessage_stream_table_witness :
    NodupKeys (SpState.mk [] []).metadata ∧
    (streamKeyOf { streamId := some "s1", mtype := some "stream:chunk" } = "s1" →
      jget (SpState.mk [] []).metadata "s1" = none →
      ({ streamId := some "s1", mtype := some "stream:chunk" } : SMsg).mtype ≠ some "stream:end" →
      ∃ b, jget ((routeMessage (SpState.mk [] [])
          { streamId := some "s1", mtype := some "stream:chunk" } 0).1).metadata "s1" = some b ∧
        b.chunks = 1) :=
  ⟨by constructor,
    (routeMessage_stream_table (SpState.mk [] [])
      { streamId := some "s1", mtype := some "stream:chunk" } 0 "s1"
      (by constructor) (by intro k; simp [jget])).2.2.2.1⟩

/-! ### AsyncRouter queue dispatch (src/multiplex/async-router.ts, claim C5)

Handlers are arbitrary functions that may fail (a thrown exception is an
Except.error); a successful handler may return a value whose JavaScript
truthiness decides whether a route:result event is re-emitted.  Message
serialization for regular-expression patterns is a capability carried on
the message as its serialized text.
-/

/-- A routed message: string patterns compare against the topic or type
field, regular expressions test the serialized text. -/
structure RMsg where
  topic : Option String := none
  rtype : Option String := none
  text : String := ""
  deriving DecidableEq, Repr

/-- A route pattern: a literal string or a regular expression, the
latter embedded as its source plus its test predicate. -/
inductive Pattern where
  | str (s : String)
  | re (src : String) (test : String → Bool)

/-- pattern.toString(), as used in emitted events. -/
def Pattern.show : Pattern → String
  | Pattern.str s => s
  | Pattern.re src _ => src

/-- RouteConfig from async-router.ts. -/
structure Route where
  pattern : Pattern
  handler : RMsg → Except String (Option String)
  priority : Int := 0

/-- AsyncRouter.matchesPattern. -/
def matchesPattern (m : RMsg) (p : Pattern) : Bool :=
  match p with
  | Pattern.str s => m.topic == some s || m.rtype == some s
  | Pattern.re _ test => test m.text

/-- Events observable from handleRoute: the per-route success report,
the re-emitted truthy result, and the per-route error isolation event. -/
inductive REvent where
  | handled (topic pat : String) (success : Bool)
  | result (original : RMsg) (value : String) (topic : String)
  | errorEvt (topic pat errMsg : String) (msg : RMsg)
  deriving DecidableEq, Repr

/-- JavaScript truthiness of a handler result. -/
def truthyResult (o : Option String) : Bool :=
  match o with
  | some s => s ≠ ""
  | none => false

/-- AsyncRouter.handleRoute: run the handler, emit route:handled and a
route:result for a truthy return value; catch a failure per-handler and
emit route:error instead, never propagating. -/
def handleRoute (topic : String) (route : Route) (m : RMsg) : List REvent :=
  match route.handler m with
  | Except.ok result =>
    let ev := REvent.handled topic route.pattern.show true
    if truthyResult result then
      [ev, REvent.result m (result.getD "") topic]
    else [ev]
  | Except.error e => [REvent.errorEvt topic route.pattern.show e m]

/-- The routes matching one message, scanning every route of every
topic in table order, as the nested loops of processQueue do. -/
def matchingRoutes (routes : List (String × List Route)) (m : RMsg) :
    List (String × Route) :=
  routes.flatMap (fun tr =>
    (tr.2.map (fun r => (tr.1, r))).filter (fun p => matchesPattern m p.2.pattern))

/-- The full fan-out for one dequeued message: all matching handlers run
and their collective outcome is awaited (Promise.allSettled). -/
def dispatchMessage (routes : List (String × List Route)) (m : RMsg) : List REvent :=
  (matchingRoutes routes m).flatMap (fun p => handleRoute p.1 p.2 m)

/-- AsyncRouter.processQueue: drain the FIFO queue one message at a
time, awaiting the whole fan-out of each message before dequeuing the
next; the trace pairs each message with its batch of events. -/
def processQueue (routes : List (String × List Route)) :
    List RMsg → List (RMsg × List REvent)
  | [] => []
  | msg :: rest => (msg, dispatchMessage routes msg) :: processQueue routes rest

/-- The outcome event a single route contributes for a message: the
success report, or the isolated route:error on handler failure. -/
def routeOutcome (topic : String) (route : Route) (m : RMsg) : REvent :=
  match route.handler m with
  | Except.ok _ => REvent.handled topic route.pattern.show true
  | Except.error e => REvent.errorEvt topic route.pattern.show e m

theorem routeOutcome_mem_handleRoute (topic : String) (route : Route) (m : RMsg) :
    routeOutcome topic route m ∈ handleRoute topic route m := by
  unfold routeOutcome handleRoute
  cases route.handler m with
  | ok result =>
    by_cases ht : truthyResult result = true
    · simp [ht]
    · simp [ht]
  | error e => simp

/-- C5: the router drains its queue strictly FIFO, one batch per message
in order, and for every dequeued message every route whose pattern
matches contributes its outcome to that message batch, regardless of
other handlers failing: a failing handler contributes the route:error
event and stops neither sibling handlers nor later messages. -/
theorem router_fifo_fanout (routes : List (String × List Route)) (q : List RMsg) :
    ((processQueue routes q).map Prod.fst = q) ∧
    (∀ p ∈ processQueue routes q, ∀ topic rs route, (topic, rs) ∈ routes →
      route ∈ rs → matchesPattern p.1 route.pattern = true →
      routeOutcome topic route p.1 ∈ p.2) := by
  constructor
  · induction q with
    | nil => rfl
    | cons msg rest ih => simp [processQueue, ih]
  · intro p hp topic rs route htr hr hmatch
    have hform : p.2 = dispatchMessage routes p.1 := by
      induction q with
      | nil => simp [processQueue] at hp
      | cons msg rest ih =>
        rcases List.mem_cons.mp hp with h | h
        · rw [h]
        · exact ih h
    rw [hform]
    unfold dispatchMessage
    refine List.mem_flatMap.mpr ⟨(topic, route), ?_, routeOutcome_mem_handleRoute topic route p.1⟩
    unfold matchingRoutes
    refine List.mem_flatMap.mpr ⟨(topic, rs), htr, ?_⟩
    refine List.mem_filter.mpr ⟨List.mem_map.mpr ⟨route, hr, rfl⟩, hmatch⟩

/-- Concrete routes for the C5 instance: one succeeding and one failing
handler on the same topic, both matching the message. -/
def wOkRoute : Route :=
  { pattern := Pattern.str "hello", handler := fun _ => Except.ok (some "v") }

def wBadRoute : Route :=
  { pattern := Pattern.str "hello", handler := fun _ => Except.error "boom" }

def wMsg : RMsg := { topic := some "hello" }

def wRoutes : List (String × List Route) := [("t", [wOkRoute, wBadRoute])]

theorem router_fifo_fanout_witness :
    matchesPattern wMsg wBadRoute.pattern = true ∧
    routeOutcome "t" wBadRoute wMsg ∈ (wMsg, dispatchMessage wRoutes wMsg).2 ∧
    (processQueue wRoutes [wMsg]).map Prod.fst = [wMsg] :=
  ⟨rfl,
    (router_fifo_fanout wRoutes [wMsg]).2 (wMsg, dispatchMessage wRoutes wMsg)
      (by simp [processQueue]) "t" [wOkRoute, wBadRoute] wBadRoute
      (by simp [wRoutes]) (by simp) rfl,
    (router_fifo_fanout wRoutes [wMsg]).1⟩

/-! ### AsyncRouter request and reply correlation (claim C2)

The request primitive registers a single-shot listener on its private
reply topic and a rejection timer; the reply handler clears the timer
and the timer handler removes the listener, so both self-destruct.  The
settlement log records every resolve or reject attempted on the promise.
-/

/-- Request envelope emitted on route:request. -/
structure ReqEnvelope where
  topic : String
  payload : String
  requestId : String
  replyTo : String
  deriving DecidableEq, Repr

/-- Reply envelope emitted to the reply-to address by onRequest. -/
structure ReplyEnvelope where
  result : Option String := none
  errMsg : Option String := none
  requestId : String
  success : Bool
  deriving DecidableEq, Repr

/-- The envelope AsyncRouter.request emits for a generated request id. -/
def mkRequestEnvelope (topic payload requestId : String) : ReqEnvelope :=
  { topic := topic, payload := payload, requestId := requestId,
    replyTo := "route:response:" ++ requestId }

/-- AsyncRouter.onRequest for one inbound request envelope: a handler
registered for a topic answers only matching envelopes, replying to the
reply-to address with the result on success or the error on failure. -/
def onRequestHandle (topic : String) (handler : String → Except String String)
    (e : ReqEnvelope) : Option (String × ReplyEnvelope) :=
  if e.topic = topic then
    some (e.replyTo,
      match handler e.payload with
      | Except.ok v => { result := some v, requestId := e.requestId, success := true }
      | Except.error err => { errMsg := some err, requestId := e.requestId, success := false })
  else none

/-- A settlement attempted on the request promise. -/
inductive Settle where
  | resolve (v : Option String)
  | rejectTimeout
  deriving DecidableEq, Repr

/-- State of one pending request: the settlements attempted so far,
whether the once-listener is still installed, and whether the timer is
still armed. -/
structure Pending where
  settles : List Settle
  listenerActive : Bool
  timerActive : Bool
  deriving DecidableEq, Repr

/-- State right after request() registered listener and timer. -/
def initPending : Pending :=
  { settles := [], listenerActive := true, timerActive := true }

/-- An event-loop step that can affect the pending request. -/
inductive RStep where
  | reply (e : ReplyEnvelope)
  | timerFire

/-- One step: a reply event triggers the once-listener (removing it and
clearing the timer, then resolving with the envelope result field); the
timer firing removes the listener and rejects with the timeout error;
either event against an already-disarmed request does nothing. -/
def stepPending (p : Pending) (s : RStep) : Pending :=
  match s with
  | RStep.reply e =>
    if p.listenerActive then
      { settles := p.settles ++ [Settle.resolve e.result],
        listenerActive := false, timerActive := false }
    else p
  | RStep.timerFire =>
    if p.timerActive then
      { settles := p.settles ++ [Settle.rejectTimeout],
        listenerActive := false, timerActive := false }
    else p

/-- Run an arbitrary interleaving of reply and timer events. -/
def runPending (p : Pending) (steps : List RStep) : Pending :=
  steps.foldl stepPending p

theorem runPending_inactive (p : Pending) (steps : List RStep)
    (hl : p.listenerActive = false) (ht : p.timerActive = false) :
    runPending p steps = p := by
  induction steps with
  | nil => rfl
  | cons s rest ih =>
    have hstep : stepPending p s = p := by
      cases s with
      | reply e => simp [stepPending, hl]
      | timerFire => simp [stepPending, ht]
    show runPending (stepPending p s) rest = p
    rw [hstep, ih]

theorem runPending_first_reply (e : ReplyEnvelope) (rest : List RStep) :
    (runPending initPending (RStep.reply e :: rest)).settles = [Settle.resolve e.result] := by
  show (runPending (stepPending initPending (RStep.reply e)) rest).settles = _
  have hstep : stepPending initPending (RStep.reply e) =
      { settles := [Settle.resolve e.result], listenerActive := false, timerActive := false } := rfl
  rw [hstep, runPending_inactive _ rest rfl rfl]

theorem runPending_at_most_once (steps : List RStep) :
    (runPending initPending steps).settles.length ≤ 1 := by
  cases steps with
  | nil => simp [runPending, initPending]
  | cons s rest =>
    cases s with
    | reply e =>
      rw [show runPending initPending (RStep.reply e :: rest) =
          runPending (stepPending initPending (RStep.reply e)) rest from rfl]
      rw [show stepPending initPending (RStep.reply e) =
          { settles := [Settle.resolve e.result], listenerActive := false,
            timerActive := false } from rfl]
      rw [runPending_inactive _ rest rfl rfl]
      simp
    | timerFire =>
      rw [show runPending initPending (RStep.timerFire :: rest) =
          runPending (stepPending initPending RStep.timerFire) rest from rfl]
      rw [show stepPending initPending RStep.timerFire =
          { settles := [Settle.rejectTimeout], listenerActive := false,
            timerActive := false } from rfl]
      rw [runPending_inactive _ rest rfl rfl]
      simp

/-- The successful reply envelope carrying a handler result. -/
def okReply (v requestId : String) : ReplyEnvelope :=
  { result := some v, errMsg := none, requestId := requestId, success := true }

/-- C2: a request answered by an onRequest handler registered for the
same topic is replied to on its private reply-to address with exactly
the handler return value, the promise resolves with exactly that value,
and it settles exactly once: whatever further events follow the reply
(including the timer almost elapsing and firing), no second settlement
is ever attempted, and any run settles at most once. -/
theorem request_reply_roundtrip (topic payload requestId : String)
    (handler : String → Except String String) (v : String) (rest : List RStep)
    (hh : handler payload = Except.ok v) :
    (onRequestHandle topic handler (mkRequestEnvelope topic payload requestId) =
      some ("route:response:" ++ requestId, okReply v requestId)) ∧
    (runPending initPending
      (RStep.reply (okReply v requestId) :: rest)).settles = [Settle.resolve (some v)] ∧
    (∀ steps : List RStep, (runPending initPending steps).settles.length ≤ 1) := by
  refine ⟨?_, ?_, runPending_at_most_once⟩
  · unfold onRequestHandle mkRequestEnvelope okReply
    simp [hh]
  · exact runPending_first_reply _ rest

theorem request_reply_roundtrip_witness :
    (fun _ : String => (Except.ok "answer" : Except String String)) "ping" =
      Except.ok "answer" ∧
    (runPending initPending
      (RStep.reply (okReply "answer" "r1") :: [RStep.timerFire])).settles =
        [Settle.resolve (some "answer")] :=
  ⟨rfl,
    (request_reply_roundtrip "query" "ping" "r1" (fun _ => Except.ok "answer") "answer"
      [RStep.timerFire] rfl).2.1⟩

theorem splitter_reassembly_witness :
    toyParse (['a'] ++ ['b']) = some 7 ∧
    processChunk toyParse [] ['a'] = (['a'], []) ∧
    processChunk toyParse ['a'] (['b'] ++ ['\n']) = ([], [(['a'] ++ ['b'], 7)]) :=
  ⟨by decide,
    (splitter_reassembly toyParse ['a'] ['b'] 7 (by decide) (by decide) (by decide)
      (by decide) (by decide) (by decide) (by decide)).1,
    (splitter_reassembly toyParse ['a'] ['b'] 7 (by decide) (by decide) (by decide)
      (by decide) (by decide) (by decide) (by decide)).2⟩

/-! ### HumanInTheLoopCoordinator (src/human-loop/coordinator.ts)

The pending-request table, the per-request once-listeners and approval
timers, and the settlement log of the blocking waits are all explicit
state.  An approval wait registers both a listener and a timer; the
timeout handler deletes the pending entry and resolves the rejection
but leaves the spent once-listener in place, exactly as the source
does; a review posts its request without registering any waiter.
-/

/-- Request priority levels. -/
inductive Priority where
  | high
  | medium
  | low
  deriving DecidableEq, Repr

/-- A decision message routed to handleDecision. -/
structure DecisionMsg where
  agentId : String
  decisionType : String
  confidence : Rat
  decision : String := ""
  deriving DecidableEq, Repr

/-- HumanRequest from coordinator.ts. -/
structure HumanRequest where
  id : String
  rtype : String
  priority : Priority
  fromAgent : String
  context : Option DecisionMsg := none
  timestamp : Nat
  timeout : Option Nat := none
  deriving DecidableEq, Repr

/-- AgentPolicy from coordinator.ts. -/
structure AgentPolicy where
  agentId : String
  autonomyLevel : String := "supervised"
  requiresApprovalFor : List String := []
  notifyHumanFor : List String := []
  deriving DecidableEq, Repr

/-- The value a blocking wait resolves with: the human response shape or
the timeout rejection. -/
structure ApprovalOutcome where
  approved : Bool
  reason : Option String := none
  deriving DecidableEq, Repr

/-- Kinds of once-listeners registered on response topics. -/
inductive WKind where
  | approvalW
  | attentionW
  deriving DecidableEq, Repr

/-- Events emitted by the coordinator. -/
inductive CoEvent where
  | humanRequest (r : HumanRequest)
  | agentAutonomous (agentId : String)
  deriving DecidableEq, Repr

/-- Coordinator instance state. -/
structure CoState where
  pending : List (String × HumanRequest) := []
  listeners : List (String × WKind) := []
  timers : List String := []
  settles : List (String × ApprovalOutcome) := []
  events : List CoEvent := []
  policies : List (String × AgentPolicy) := []
  deriving Repr

/-- The confidence threshold below which a decision is flagged for
review. -/
def humanAttentionThreshold : Rat := 0.8

/-- Whether the policy for the deciding agent lists the decision type as
requiring approval. -/
def requiresApproval (st : CoState) (msg : DecisionMsg) : Bool :=
  match jget st.policies msg.agentId with
  | some pol => pol.requiresApprovalFor.contains msg.decisionType
  | none => false

/-- The HumanRequest record built by requestHumanApproval. -/
def approvalRequest (msg : DecisionMsg) (fid : String) (now : Nat) : HumanRequest :=
  { id := fid, rtype := "approval", priority := Priority.high,
    fromAgent := msg.agentId, context := some msg, timestamp := now,
    timeout := some 30000 }

/-- The HumanRequest record built by requestHumanReview. -/
def reviewRequest (msg : DecisionMsg) (fid : String) (now : Nat) : HumanRequest :=
  { id := fid, rtype := "review", priority := Priority.medium,
    fromAgent := msg.agentId, context := some msg, timestamp := now }

/-- HumanInTheLoopCoordinator.requestHumanApproval, up to its first
suspension: create the high-priority request with a 30000 timeout,
insert it in the pending table, emit human:request, and register the
once-listener and rejection timer of the blocking wait. -/
def requestHumanApproval (st : CoState) (msg : DecisionMsg) (fid : String)
    (now : Nat) : CoState × String :=
  let r := approvalRequest msg fid now
  ({ st with
      pending := jset st.pending fid r,
      listeners := jset st.listeners fid WKind.approvalW,
      timers := fid :: st.timers,
      events := st.events ++ [CoEvent.humanRequest r] }, fid)

/-- HumanInTheLoopCoordinator.requestHumanReview: insert the
medium-priority review request and emit human:request, registering no
listener and no timer; the caller proceeds immediately. -/
def requestHumanReview (st : CoState) (msg : DecisionMsg) (fid : String)
    (now : Nat) : CoState × String :=
  let r := reviewRequest msg fid now
  ({ st with
      pending := jset st.pending fid r,
      events := st.events ++ [CoEvent.humanRequest r] }, fid)

/-- The three-way outcome of handleDecision. -/
inductive DecisionOutcome where
  | pendingApproval (requestId : String)
  | flaggedReview (requestId : String)
  | autonomous
  deriving DecidableEq, Repr

/-- HumanInTheLoopCoordinator.handleDecision: approval when the policy
gates the decision type, review below the confidence threshold,
autonomous otherwise. -/
def handleDecision (st : CoState) (msg : DecisionMsg) (fid : String) (now : Nat) :
    CoState × DecisionOutcome :=
  if requiresApproval st msg then
    let r := requestHumanApproval st msg fid now
    (r.1, DecisionOutcome.pendingApproval r.2)
  else if msg.confidence < humanAttentionThreshold then
    let r := requestHumanReview st msg fid now
    (r.1, DecisionOutcome.flaggedReview r.2)
  else
    ({ st with events := st.events ++ [CoEvent.agentAutonomous msg.agentId] },
      DecisionOutcome.autonomous)

/-- The rejection value resolved on an approval timeout. -/
def timeoutOutcome : ApprovalOutcome := { approved := false, reason := some "timeout" }

/-- The approval timeout firing for a request id: delete the pending
entry and resolve the wait with the timeout rejection.  The spent
once-listener is not removed, mirroring the source. -/
def timerFireApproval (st : CoState) (id : String) : CoState :=
  if id ∈ st.timers then
    { st with
        pending := jdel st.pending id,
        timers := st.timers.filter (fun t => t != id),
        settles := st.settles ++ [(id, timeoutOutcome)] }
  else st

/-- HumanInTheLoopCoordinator.respondToRequest: emit on the response
topic only when the id is still pending; the emission triggers at most
the single once-listener registered for that id, which clears its
timer, deletes the pending entry and resolves the wait; with no
listener installed the emission reaches nobody and nothing changes. -/
def respondToRequest (st : CoState) (id : String) (resp : ApprovalOutcome) : CoState :=
  if (jget st.pending id).isSome then
    match jget st.listeners id with
    | some WKind.approvalW =>
      { st with
          pending := jdel st.pending id,
          listeners := jdel st.listeners id,
          timers := st.timers.filter (fun t => t != id),
          settles := st.settles ++ [(id, resp)] }
    | some WKind.attentionW =>
      { st with
          pending := jdel st.pending id,
          listeners := jdel st.listeners id,
          settles := st.settles ++ [(id, resp)] }
    | none => st
  else st

/-- The comparator weights of getPendingRequests. -/
def priorityWeight : Priority → Nat
  | Priority.high => 3
  | Priority.medium => 2
  | Priority.low => 1

/-- The order implemented by the getPendingRequests comparator: strictly
greater priority weight first, ties by ascending creation time. -/
def reqBefore (a b : HumanRequest) : Prop :=
  priorityWeight b.priority < priorityWeight a.priority ∨
    (priorityWeight a.priority = priorityWeight b.priority ∧ a.timestamp ≤ b.timestamp)

instance : DecidableRel reqBefore := fun a b =>
  inferInstanceAs (Decidable (priorityWeight b.priority < priorityWeight a.priority ∨
    (priorityWeight a.priority = priorityWeight b.priority ∧ a.timestamp ≤ b.timestamp)))

instance : IsTotal HumanRequest reqBefore :=
  ⟨by intro a b; unfold reqBefore; omega⟩

instance : IsTrans HumanRequest reqBefore :=
  ⟨by intro a b c hab hbc; unfold reqBefore at hab hbc ⊢; omega⟩

/-- HumanInTheLoopCoordinator.getPendingRequests: all open requests
sorted by the priority-then-timestamp comparator. -/
def getPendingRequests (st : CoState) : List HumanRequest :=
  List.insertionSort reqBefore (st.pending.map Prod.snd)

theorem self_mem_jset {α : Type} (m : List (String × α)) (k : String) (v : α) :
    (k, v) ∈ jset m k v := by
  induction m with
  | nil => simp [jset]
  | cons p rest ih =>
    obtain ⟨k1, w⟩ := p
    by_cases h : k1 = k
    · simp [jset, h]
    · simp [jset, h]
      right
      exact ih

/-- C8: a decision whose action name is gated by the agent policy enters
the blocking approval wait; when no human response arrives and the
timeout fires, the wait resolves with approved false and reason timeout
and the pending request is removed, exactly as an explicit rejection
would resolve the requester. -/
theorem approval_timeout_resolution (st : CoState) (msg : DecisionMsg)
    (fid : String) (now : Nat) (pol : AgentPolicy)
    (hpol : jget st.policies msg.agentId = some pol)
    (hreq : pol.requiresApprovalFor.contains msg.decisionType = true) :
    ((handleDecision st msg fid now).2 = DecisionOutcome.pendingApproval fid) ∧
    (∃ r : HumanRequest,
      jget ((handleDecision st msg fid now).1).pending fid = some r ∧
      r.rtype = "approval" ∧ r.timeout = some 30000) ∧
    ((timerFireApproval (handleDecision st msg fid now).1 fid).settles =
      ((handleDecision st msg fid now).1).settles ++ [(fid, timeoutOutcome)]) ∧
    (jget (timerFireApproval (handleDecision st msg fid now).1 fid).pending fid = none) := by
  have hr : requiresApproval st msg = true := by
    unfold requiresApproval
    rw [hpol]
    exact hreq
  have hd : handleDecision st msg fid now =
      ((requestHumanApproval st msg fid now).1, DecisionOutcome.pendingApproval fid) := by
    unfold handleDecision
    rw [if_pos hr]
    rfl
  rw [hd]
  have htm : fid ∈ ((requestHumanApproval st msg fid now).1).timers := by
    show fid ∈ fid :: st.timers
    exact List.mem_cons_self fid st.timers
  refine ⟨rfl, ?_, ?_, ?_⟩
  · refine ⟨approvalRequest msg fid now, ?_, rfl, rfl⟩
    show jget (jset st.pending fid (approvalRequest msg fid now)) fid = _
    rw [jget_set_self]
  · unfold timerFireApproval
    rw [if_pos htm]
  · unfold timerFireApproval
    rw [if_pos htm]
    show jget (jdel _ fid) fid = none
    rw [jget_del_self]

/-- C8 concrete policy and decision. -/
def wPol : AgentPolicy := { agentId := "a1", requiresApprovalFor := ["deploy"] }

def wDecision : DecisionMsg :=
  { agentId := "a1", decisionType := "deploy", confidence := 1 }

def wApprovalState : CoState := { policies := [("a1", wPol)] }

theorem approval_timeout_resolution_witness :
    jget wApprovalState.policies wDecision.agentId = some wPol ∧
    wPol.requiresApprovalFor.contains wDecision.decisionType = true ∧
    jget (timerFireApproval (handleDecision wApprovalState wDecision "q1" 5).1 "q1").pending "q1"
      = none :=
  ⟨by decide, by decide,
    (approval_timeout_resolution wApprovalState wDecision "q1" 5 wPol (by decide)
      (by decide)).2.2.2⟩

/-- The concrete pending set of the specification example. -/
def exLow : HumanRequest :=
  { id := "r1", rtype := "input", priority := Priority.low, fromAgent := "a1", timestamp := 1 }

def exHigh : HumanRequest :=
  { id := "r2", rtype := "approval", priority := Priority.high, fromAgent := "a2", timestamp := 2 }

def exMedium : HumanRequest :=
  { id := "r3", rtype := "review", priority := Priority.medium, fromAgent := "a3", timestamp := 3 }

def exPendingState : CoState :=
  { pending := [("r1", exLow), ("r2", exHigh), ("r3", exMedium)] }

/-- C9: getPendingRequests returns a permutation of the open requests,
sorted by priority high before medium before low with ties by ascending
creation time; on the concrete set low at time one, high at time two,
medium at time three it returns exactly high, medium, low. -/
theorem pending_requests_sorted (st : CoState) :
    (getPendingRequests st).Perm (st.pending.map Prod.snd) ∧
    (getPendingRequests st).Sorted reqBefore ∧
    getPendingRequests exPendingState = [exHigh, exMedium, exLow] := by
  refine ⟨List.perm_insertionSort reqBefore _, List.sorted_insertionSort reqBefore _, ?_⟩
  decide

/-- C10: a decision below the confidence threshold posts a review
request into the pending table with no response waiter registered;
respondToRequest with its id (or any id) never removes it, an approval
timer firing never removes it, and it remains in the getPendingRequests
output after a response is attempted. -/
theorem review_requests_never_removed (st : CoState) (msg : DecisionMsg)
    (fid : String) (now : Nat) (resp : ApprovalOutcome)
    (hnoreq : requiresApproval st msg = false)
    (hconf : msg.confidence < humanAttentionThreshold)
    (hfreshL : jget st.listeners fid = none)
    (hfreshT : fid ∉ st.timers) :
    ((handleDecision st msg fid now).2 = DecisionOutcome.flaggedReview fid) ∧
    (∃ r : HumanRequest,
      jget ((handleDecision st msg fid now).1).pending fid = some r ∧
      r.rtype = "review" ∧
      jget ((handleDecision st msg fid now).1).listeners fid = none ∧
      (∀ id2 resp2, jget (respondToRequest (handleDecision st msg fid now).1 id2 resp2).pending fid
        = some r) ∧
      (∀ id2, jget (timerFireApproval (handleDecision st msg fid now).1 id2).pending fid
        = some r) ∧
      r ∈ getPendingRequests (respondToRequest (handleDecision st msg fid now).1 fid resp)) := by
  have hd : handleDecision st msg fid now =
      (requestHumanReview st msg fid now |>.1, DecisionOutcome.flaggedReview fid) := by
    unfold handleDecision
    rw [if_neg (by simp [hnoreq]), if_pos hconf]
    rfl
  rw [hd]
  refine ⟨rfl, ?_⟩
  have hpend : jget ((requestHumanReview st msg fid now).1).pending fid =
      some (reviewRequest msg fid now) := by
    show jget (jset st.pending fid (reviewRequest msg fid now)) fid = _
    rw [jget_set_self]
  have hlis : jget ((requestHumanReview st msg fid now).1).listeners fid = none := hfreshL
  refine ⟨reviewRequest msg fid now, hpend, rfl, hlis, ?_, ?_, ?_⟩
  · intro id2 resp2
    unfold respondToRequest
    by_cases hid : id2 = fid
    · rw [hid, hlis]
      by_cases hp : (jget ((requestHumanReview st msg fid now).1).pending fid).isSome
      · rw [if_pos hp]
        exact hpend
      · rw [if_neg hp]
        exact hpend
    · have hne : id2 ≠ fid := hid
      by_cases hp : (jget ((requestHumanReview st msg fid now).1).pending id2).isSome
      · rw [if_pos hp]
        cases hl : jget ((requestHumanReview st msg fid now).1).listeners id2 with
        | none => exact hpend
        | some w =>
          cases w with
          | approvalW =>
            show jget (jdel _ id2) fid = _
            rw [jget_del_ne _ _ _ hne]
            exact hpend
          | attentionW =>
            show jget (jdel _ id2) fid = _
            rw [jget_del_ne _ _ _ hne]
            exact hpend
      · rw [if_neg hp]
        exact hpend
  · intro id2
    unfold timerFireApproval
    by_cases ht : id2 ∈ ((requestHumanReview st msg fid now).1).timers
    · rw [if_pos ht]
      have hne : id2 ≠ fid := by
        intro he
        subst he
        exact hfreshT ht
      show jget (jdel _ id2) fid = _
      rw [jget_del_ne _ _ _ hne]
      exact hpend
    · rw [if_neg ht]
      exact hpend
  · have hresp : respondToRequest ((requestHumanReview st msg fid now).1) fid resp =
        (requestHumanReview st msg fid now).1 := by
      unfold respondToRequest
      rw [hlis]
      by_cases hp : (jget ((requestHumanReview st msg fid now).1).pending fid).isSome
      · rw [if_pos hp]
      · rw [if_neg hp]
    rw [hresp]
    unfold getPendingRequests
    rw [List.mem_insertionSort]
    exact List.mem_map.mpr ⟨(fid, _), self_mem_jset st.pending fid _, rfl⟩

/-- C10 concrete low-confidence decision. -/
def wReviewMsg : DecisionMsg :=
  { agentId := "a9", decisionType := "note", confidence := 1/2 }

theorem review_requests_never_removed_witness :
    requiresApproval {} wReviewMsg = false ∧
    wReviewMsg.confidence < humanAttentionThreshold ∧
    ((handleDecision {} wReviewMsg "v1" 3).2 = DecisionOutcome.flaggedReview "v1") :=
  ⟨by decide, by norm_num [wReviewMsg, humanAttentionThreshold],
    (review_requests_never_removed {} wReviewMsg "v1" 3 { approved := true } (by decide)
      (by norm_num [wReviewMsg, humanAttentionThreshold]) (by decide) (by decide)).1⟩

end Cabal
